import Mathlib

/-!
# Verification of the investment query/mutation translation layer

Shallow embedding of the core logic of the serverless financial dashboard:
`src/utils/validators.ts` (field coercion / payload sanitization),
`src/utils/investmentRepository.ts` (filter compilation, exhaustive scan,
sort engine, conditioned writes) and `src/services/investmentService.ts`
(outcome mapping).

Modelling choices:
* JavaScript scalar values are the inductive `Value`; JavaScript numbers are
  modelled on the integer fragment (`Int`), which is the fragment the coercion
  and comparison logic of this code distinguishes.
* JavaScript objects (records, filter sets, payloads) are ordered association
  lists `Obj`, matching `Object.entries` enumeration order.
* Host string primitives (`split`, `trim`, `startsWith`, `Number(...)`) are
  re-implemented over character lists so that every definition evaluates by
  kernel reduction.
* The DynamoDB document client is the excluded collaborator: the store is an
  association list `Table`, and its conditional-write / paged-scan behaviour
  is modelled from the spec's abstract store operations.
-/

/-- A JavaScript scalar value as it appears in payloads and filters.
`undef` is JavaScript `undefined`, kept distinct from `null`. -/
inductive Value where
  | num : Int → Value
  | str : String → Value
  | bool : Bool → Value
  | null : Value
  | undef : Value
deriving DecidableEq, Repr

/-- A JavaScript object as an ordered association list (entry order =
`Object.entries` order). -/
abbrev Obj := List (String × Value)

/-- First entry with the given key, i.e. JavaScript property access returning
`undefined`-as-`none` when the property is absent. -/
def lookupField (o : Obj) (k : String) : Option Value :=
  (o.find? (fun kv => kv.1 = k)).map (fun kv => kv.2)

/-- Property access as in `item?.[field]`: an absent property reads as
`undefined`. -/
def getField (o : Obj) (k : String) : Value :=
  (lookupField o k).getD Value.undef

/-- Property assignment `o[k] = v`: overwrite in place, or append a new entry. -/
def setField (o : Obj) (k : String) (v : Value) : Obj :=
  if o.any (fun kv => kv.1 = k) then
    o.map (fun kv => if kv.1 = k then (k, v) else kv)
  else
    o ++ [(k, v)]

/-! ## Host string primitives, re-implemented over character lists -/

/-- Characters `String.prototype.trim` removes (ASCII whitespace fragment). -/
def isJsSpace (c : Char) : Bool :=
  c = ' ' ∨ c = '\t' ∨ c = '\n' ∨ c = '\r'

/-- `s.trim()` on the character list. -/
def jsTrim (s : String) : String :=
  String.mk (((s.data.dropWhile isJsSpace).reverse.dropWhile isJsSpace).reverse)

/-- Split helper for `s.split(",")`. -/
def splitCommaAux : List Char → List Char → List String
  | [], acc => [String.mk acc.reverse]
  | c :: cs, acc =>
    if c = ',' then String.mk acc.reverse :: splitCommaAux cs []
    else splitCommaAux cs (c :: acc)

/-- `s.split(",")`. -/
def splitComma (s : String) : List String :=
  splitCommaAux s.data []

/-- `s.startsWith(c)` for a one-character prefix. -/
def strStartsWith (s : String) (c : Char) : Bool :=
  match s.data with
  | [] => false
  | d :: _ => d = c

/-- Drop the first character, as in `field.replace(/^[-+]/, "")`'s stripping
step. -/
def strDropOne (s : String) : String :=
  String.mk (s.data.drop 1)

/-- Value of a nonempty all-digit character list. -/
def digitsToNat : List Char → Nat → Nat
  | [], acc => acc
  | c :: cs, acc => digitsToNat cs (acc * 10 + (c.toNat - 48))

/-- Parse a nonempty run of decimal digits. -/
def parseDigits (cs : List Char) : Option Nat :=
  if cs ≠ [] ∧ cs.all Char.isDigit then some (digitsToNat cs 0) else none

/-- `Number(s)` for a string argument, on the integer fragment of ECMAScript
ToNumber: surrounding whitespace is ignored, the empty (or all-space) string
converts to `0`, an optional sign is followed by decimal digits, and anything
else is NaN (`none`). -/
def jsStrToNum (s : String) : Option Int :=
  let t := (jsTrim s).data
  if t = [] then some 0
  else
    match t with
    | '-' :: rest => (parseDigits rest).map (fun n => -(n : Int))
    | '+' :: rest => (parseDigits rest).map (fun n => (n : Int))
    | _ => (parseDigits t).map (fun n => (n : Int))

/-- `Number(value)` on the integer fragment of ECMAScript ToNumber;
`none` is NaN. -/
def toNumber : Value → Option Int
  | .num n => some n
  | .str s => jsStrToNum s
  | .bool true => some 1
  | .bool false => some 0
  | .null => some 0
  | Value.undef => none

/-- ECMAScript ToString on scalars; `String(value)` and `value.toString()`
agree on every non-nullish scalar. -/
def jsToString : Value → String
  | .num n => toString n
  | .str s => s
  | .bool true => "true"
  | .bool false => "false"
  | .null => "null"
  | Value.undef => "undefined"

/-- JavaScript falsiness of a scalar. -/
def valueFalsy : Value → Bool
  | .num n => n = 0
  | .str s => s = ""
  | .bool b => !b
  | .null => true
  | Value.undef => true

/-- Falsiness of a property read (`!o.k`): an absent property is falsy. -/
def fieldFalsy (o : Option Value) : Bool :=
  match o with
  | none => true
  | some v => valueFalsy v

/-! ## Field coercion (`validators.ts` / `investmentRepository.ts`) -/

/-- The `NUMERIC_FIELDS` set (`["id", "price"]`) shared by `validators.ts`
and `investmentRepository.ts`. -/
def numericFields : List String := ["id", "price"]

/-- One iteration of the `sanitizeInvestmentPayload` loop in `validators.ts`:
the coercion applied to field `key` with raw value `value` when sanitizing a
write payload; `none` means the field is skipped (`continue` without
assignment). -/
def coerceWrite (key : String) (value : Value) : Option Value :=
  if value = Value.undef ∨ value = .null then none
  else if key ∈ numericFields then
    match toNumber value with
    | some n => some (.num n)
    | none => none
  else if key = "year" then some (.str (jsToString value))
  else some value

/-- `sanitizeInvestmentPayload` from `validators.ts`: coerce each entry,
dropping the skipped ones. -/
def sanitizeInvestmentPayload (payload : Obj) : Obj :=
  payload.filterMap (fun kv => (coerceWrite kv.1 kv.2).map (fun v => (kv.1, v)))

/-- `parseFilterValue` from `investmentRepository.ts`: the coercion applied to
a filter value; `none` (`undefined` in the source) means the filter entry is
dropped. -/
def parseFilterValue (field : String) (value : Value) : Option Value :=
  if value = Value.undef ∨ value = .null ∨ value = .str "" then none
  else if field ∈ numericFields then
    match toNumber value with
    | some n => some (.num n)
    | none => none
  else if field = "year" then some (.str (jsToString value))
  else some value

/-- `sanitizeFilters` from `investmentRepository.ts`. -/
def sanitizeFilters (filters : Obj) : Obj :=
  filters.filterMap (fun kv => (parseFilterValue kv.1 kv.2).map (fun v => (kv.1, v)))

/-! ## Filter compiler (`buildFilterExpressions`) -/

/-- The scan-input fragment produced by `buildFilterExpressions`: an optional
`FilterExpression` string together with its attribute-name and
attribute-value bindings. -/
structure FilterExpressions where
  FilterExpression : Option String := none
  ExpressionAttributeNames : List (String × String) := []
  ExpressionAttributeValues : List (String × Value) := []
deriving DecidableEq, Repr

/-- `buildFilterExpressions` from `investmentRepository.ts`: skip
undefined/null/empty values, give each remaining field its own `#field` name
placeholder and `:field` value placeholder, emit one equality clause per
field, join the clauses with `AND`, and emit nothing at all when no clause
remains. -/
def buildFilterExpressions (filters : Obj) : FilterExpressions :=
  let entries := filters.filter
    (fun kv => ¬(kv.2 = Value.undef ∨ kv.2 = .null ∨ kv.2 = .str ""))
  if entries = [] then {}
  else
    { FilterExpression :=
        some (String.intercalate " AND "
          (entries.map (fun kv => "#" ++ kv.1 ++ " = :" ++ kv.1)))
      ExpressionAttributeNames := entries.map (fun kv => ("#" ++ kv.1, kv.1))
      ExpressionAttributeValues := entries.map (fun kv => (":" ++ kv.1, kv.2)) }

/-- Lookup in an attribute-name binding list. -/
def lookupName (names : List (String × String)) (k : String) : Option String :=
  (names.find? (fun kv => kv.1 = k)).map (fun kv => kv.2)

/-- Lookup in an attribute-value binding list. -/
def lookupValue (values : List (String × Value)) (k : String) : Option Value :=
  (values.find? (fun kv => kv.1 = k)).map (fun kv => kv.2)

/-- Modelled from the spec: the store-side evaluation of a compiled filter
(the raw key-value store client is an excluded collaborator). A missing
`FilterExpression` matches every record; otherwise the expression is a
conjunction of `#name = :value` equality clauses, each resolved through the
attribute bindings against the record's fields. -/
def evalFilter (fe : FilterExpressions) (item : Obj) : Bool :=
  match fe.FilterExpression with
  | none => true
  | some expr =>
    (expr.splitOn " AND ").all (fun clause =>
      match clause.splitOn " = " with
      | [nameKey, valueKey] =>
        match lookupName fe.ExpressionAttributeNames nameKey,
              lookupValue fe.ExpressionAttributeValues valueKey with
        | some field, some v => lookupField item field = some v
        | _, _ => false
      | _ => false)

/-! ## Exhaustive scanner (`scanAll`) -/

/-- Modelled from the spec: one paged scan request against the store. The
store's pages are given as the list `pages`; a request carries an optional
continuation token (`ExclusiveStartKey`, modelled as the page index), returns
the records of that page that match the filter expression, and returns the
next continuation token exactly when more pages remain. -/
def scanPage (fe : FilterExpressions) (pages : List (List Obj))
    (token : Option Nat) : List Obj × Option Nat :=
  let i := token.getD 0
  ((pages.getD i []).filter (evalFilter fe),
    if i + 1 < pages.length then some (i + 1) else none)

/-- The `do`/`while` loop body of `scanAll`: issue a scan with the current
token, append the returned items, and continue while a continuation token
comes back. `fuel` bounds the number of re-issues; `scanAll` supplies enough
fuel for the whole page chain. -/
def scanAllGo (fe : FilterExpressions) (pages : List (List Obj)) :
    Nat → Option Nat → List Obj
  | 0, token => (scanPage fe pages token).1
  | fuel + 1, token =>
    match scanPage fe pages token with
    | (items, none) => items
    | (items, some t) => items ++ scanAllGo fe pages fuel (some t)

/-- `scanAll` from `investmentRepository.ts`: start with no continuation
token, re-issue the scan with each returned token, accumulate every page's
items in page order, and stop at the first page without a token. -/
def scanAll (fe : FilterExpressions) (pages : List (List Obj)) : List Obj :=
  scanAllGo fe pages pages.length none

/-! ## Sort engine (`parseSortBy`, `compareValues`, `sortItems`) -/

/-- A parsed sort token: field name plus direction (`1` ascending,
`-1` descending). -/
structure SortField where
  field : String
  direction : Int
deriving DecidableEq, Repr

/-- `field.replace(/^[-+]/, "")`: strip one leading sign character. -/
def stripSign (t : String) : String :=
  if strStartsWith t '-' ∨ strStartsWith t '+' then strDropOne t else t

/-- `parseSortBy` from `investmentRepository.ts`: split on commas, trim each
token, drop falsy (empty) tokens, strip a single leading `-`/`+` to get the
field name (`-` meaning descending), and drop tokens whose field name is
empty after stripping. -/
def parseSortBy (sortBy : String) : List SortField :=
  ((((splitComma sortBy).map jsTrim).filter (fun f => f ≠ "")).map
    (fun f => SortField.mk (stripSign f)
      (if strStartsWith f '-' then -1 else 1))).filter
    (fun sf => sf.field ≠ "")

/-- Lexicographic order on character lists. -/
def charListLt : List Char → List Char → Bool
  | [], [] => false
  | [], _ :: _ => true
  | _ :: _, [] => false
  | a :: as, b :: bs => if a < b then true else if b < a then false else charListLt as bs

/-- `a.localeCompare(b)`, modelled as comparison of the character sequences
(code-point collation); only its sign is consumed by the sort. -/
def localeCompare (s t : String) : Int :=
  if charListLt s.data t.data then -1
  else if s = t then 0
  else 1

/-- The ECMAScript relational comparison `a > b` for the non-string cases the
comparator reaches: both operands go through ToNumber, and any NaN makes the
comparison false. -/
def jsGreater (a b : Value) : Bool :=
  match toNumber a, toNumber b with
  | some x, some y => x > y
  | _, _ => false

/-- `compareValues` from `investmentRepository.ts`: strictly-equal values
compare equal, a nullish (undefined/null) left operand sorts last, a nullish
right operand sorts first, strings compare with `localeCompare`, and anything
else with `a > b ? 1 : -1`. -/
def compareValues (a b : Value) : Int :=
  if a = b then 0
  else if a = Value.undef ∨ a = .null then 1
  else if b = Value.undef ∨ b = .null then -1
  else
    match a, b with
    | .str s, .str t => localeCompare s t
    | _, _ => if jsGreater a b then 1 else -1

/-- The comparator closure passed to `sort` in `sortItems`: walk the parsed
sort fields in order, return the first nonzero `compareValues` result times
its direction, and `0` when every field ties. -/
def itemCmp : List SortField → Obj → Obj → Int
  | [], _, _ => 0
  | sf :: rest, a, b =>
    let c := compareValues (getField a sf.field) (getField b sf.field)
    if c ≠ 0 then c * sf.direction else itemCmp rest a b

/-- Insert into a sorted prefix: the element lands before the first entry `y`
with `le x y`. -/
def jsInsert (le : α → α → Bool) (x : α) : List α → List α
  | [] => [x]
  | y :: ys => if le x y then x :: y :: ys else y :: jsInsert le x ys

/-- `Array.prototype.sort(comparator)`, modelled as a stable comparison sort
(ECMAScript requires sort stability): an element is placed after another
exactly when the comparator orders it strictly later. -/
def jsSortBy (le : α → α → Bool) : List α → List α
  | [] => []
  | x :: xs => jsInsert le x (jsSortBy le xs)

/-- `sortItems` from `investmentRepository.ts`: parse the directive, return
the items untouched when no sort field remains, and otherwise stably sort a
copy with the multi-field comparator. -/
def sortItems (items : List Obj) (sortBy : String) : List Obj :=
  if parseSortBy sortBy = [] then items
  else jsSortBy (fun a b => itemCmp (parseSortBy sortBy) a b ≤ 0) items

/-! ## Store model and repository/service operations -/

/-- A store-level error: the conditional-check failure signal
(`ConditionalCheckFailedException`) or any other store error. -/
inductive StoreErr where
  | condFail : StoreErr
  | other : String → StoreErr
deriving DecidableEq, Repr

/-- The DynamoDB table: an association list from the numeric key `id` to the
stored record. -/
abbrev Table := List (Int × Obj)

/-- `GetCommand`: fetch the record stored under a key. -/
def tableGet (t : Table) (k : Int) : Option Obj :=
  (t.find? (fun e => e.1 = k)).map (fun e => e.2)

/-- Replace the record stored under a key. -/
def tableSet (t : Table) (k : Int) (item : Obj) : Table :=
  t.map (fun e => if e.1 = k then (k, item) else e)

/-- Modelled from the spec: the store's conditional put with precondition
`attribute_not_exists(#id)` (`ConditionalPut`). The item's own `id`
attribute is the key; an existing key raises the precondition-failure
signal. -/
def condPut (t : Table) (item : Obj) : Except StoreErr Table :=
  match lookupField item "id" with
  | some (.num k) =>
    match tableGet t k with
    | some _ => .error .condFail
    | none => .ok ((k, item) :: t)
  | _ => .error (.other "invalid key")

/-- Modelled from the spec: the store's conditional update with precondition
`attribute_exists(#id)` (`ConditionalUpdate`). A missing key raises the
precondition-failure signal; otherwise each `#field_i = :value_i` assignment
of the `SET` expression is applied and the post-update record
(`ReturnValues: ALL_NEW`) is returned. -/
def condUpdate (t : Table) (k : Int) (entries : Obj) :
    Except StoreErr (Obj × Table) :=
  match tableGet t k with
  | none => .error .condFail
  | some old =>
    let updated := entries.foldl (fun o kv => setField o kv.1 kv.2) old
    .ok (updated, tableSet t k updated)

/-- Modelled from the spec: the store's delete with `ReturnValues: ALL_OLD`
(`ConditionalDelete`): remove the key and return the prior record, or return
nothing when the key was absent. -/
def tableDelete (t : Table) (k : Int) : Option Obj × Table :=
  (tableGet t k, t.filter (fun e => e.1 ≠ k))

/-- `investmentRepository.getById`. -/
def repoGetById (t : Table) (k : Int) : Option Obj :=
  tableGet t k

/-- `investmentRepository.create`: a conditional put of the record; on
success the record is returned as given. -/
def repoCreate (t : Table) (item : Obj) : Except StoreErr Obj × Table :=
  match condPut t item with
  | .ok t' => (.ok item, t')
  | .error e => (.error e, t)

/-- The `try`/`catch` of `investmentRepository.update`: a successful send
yields the post-update record, the `ConditionalCheckFailedException` name is
mapped to `null`, and every other error is re-thrown unchanged. -/
def updateCatch (res : Except StoreErr (Obj × Table)) (t : Table) :
    Except StoreErr (Option Obj) × Table :=
  match res with
  | .ok (attrs, t') => (.ok (some attrs), t')
  | .error e => if e = .condFail then (.ok none, t) else (.error e, t)

/-- `investmentRepository.update`: filter out `undefined` values, return
`null` with no store call when nothing remains, and otherwise issue the
conditional update. The third component counts store calls issued. -/
def repoUpdate (t : Table) (k : Int) (updates : Obj) :
    Except StoreErr (Option Obj) × Table × Nat :=
  let entries := updates.filter (fun kv => kv.2 ≠ Value.undef)
  if entries = [] then (.ok none, t, 0)
  else
    match updateCatch (condUpdate t k entries) t with
    | (r, t') => (r, t', 1)

/-- `investmentRepository.delete`: delete returning the prior record, `null`
when no prior record came back. -/
def repoDelete (t : Table) (k : Int) : Option Obj × Table :=
  tableDelete t k

/-- `investmentRepository.list`: sanitize the filters, compile them into the
scan input, drain the store exhaustively, and sort the accumulated items. The
store's raw pages are the parameter `pages`. -/
def listInvestments (pages : List (List Obj)) (filters : Obj)
    (sortBy : String) : List Obj :=
  sortItems (scanAll (buildFilterExpressions (sanitizeFilters filters)) pages) sortBy

/-- A service-level outcome, mirroring the errors thrown by
`investmentService`: invalid path, invalid body, the validation error for an
empty sanitized update set, HTTP-409 conflict, HTTP-404 not-found, and an
uninterpreted store error propagating through. -/
inductive SvcErr where
  | invalidPath : SvcErr
  | invalidBody : SvcErr
  | validation : SvcErr
  | conflict : SvcErr
  | notFound : SvcErr
  | store : StoreErr → SvcErr
deriving DecidableEq, Repr

/-- The payload preparation in `investmentService.create`: sanitize the
parsed body, auto-generate the id when the sanitized payload has none
(`generateInvestmentId()`, passed in as `genId`), and default the creation
timestamp when `createdAt` is falsy (`new Date().toISOString()`, passed in as
`now`). -/
def fillPayload (genId : Int) (now : String) (body : Obj) : Obj :=
  let p := sanitizeInvestmentPayload body
  let p := if lookupField p "id" = none then setField p "id" (.num genId) else p
  if fieldFalsy (lookupField p "createdAt") then setField p "createdAt" (.str now) else p

/-- `investmentService.create`: reject a missing/unparsable body, prepare the
payload, issue the conditional put, and map the conditional-check failure to
the Conflict outcome, re-raising any other store error. `body` is the
`parseBody` result (JSON parsing belongs to the excluded transport layer). -/
def serviceCreate (genId : Int) (now : String) (t : Table) (body : Option Obj) :
    Except SvcErr Obj × Table :=
  match body with
  | none => (.error .invalidBody, t)
  | some b =>
    let p := fillPayload genId now b
    match repoCreate t p with
    | (.ok item, t') => (.ok item, t')
    | (.error .condFail, t') => (.error .conflict, t')
    | (.error e, t') => (.error (.store e), t')

/-- `investmentService.update`: reject an invalid path (`investmentId` is the
`extractIdFromPath` result) or body, fail with the validation outcome when
the sanitized update set is empty, and map a `null` repository result to the
NotFound outcome. The `Nat` component counts store calls issued. -/
def serviceUpdate (t : Table) (investmentId : Option Int) (body : Option Obj) :
    Except SvcErr Obj × Table × Nat :=
  match investmentId with
  | none => (.error .invalidPath, t, 0)
  | some k =>
    match body with
    | none => (.error .invalidBody, t, 0)
    | some b =>
      let sanitized := sanitizeInvestmentPayload b
      if sanitized = [] then (.error .validation, t, 0)
      else
        match repoUpdate t k sanitized with
        | (.ok (some updated), t', n) => (.ok updated, t', n)
        | (.ok none, t', n) => (.error .notFound, t', n)
        | (.error e, t', n) => (.error (.store e), t', n)

/-- `investmentService.delete`: reject an invalid path, and map a `null`
repository result (no prior record) to the NotFound outcome. -/
def serviceDelete (t : Table) (investmentId : Option Int) :
    Except SvcErr Obj × Table :=
  match investmentId with
  | none => (.error .invalidPath, t)
  | some k =>
    match repoDelete t k with
    | (none, t') => (.error .notFound, t')
    | (some record, t') => (.ok record, t')

/-! ## Spec-side definitions used to compare against the source -/

/-- Sort-directive parsing exactly as the spec sentence words it: split on
commas into tokens and produce, in token order, one (field, direction) pair
per token — leading `-` descending, leading `+` or no prefix ascending, the
single leading prefix character stripped from the field name — discarding
any token whose field name is empty after prefix-stripping. (No trimming:
the sentence does not mention it.) -/
def specTokenPairs (sortBy : String) : List SortField :=
  (splitComma sortBy).filterMap (fun tok =>
    let f := stripSign tok
    if f = "" then none
    else some ⟨f, if strStartsWith tok '-' then -1 else 1⟩)

/-- The previous spec-side parsing amended with the trimming the source
performs: each comma-separated token is trimmed of surrounding whitespace
before the prefix is inspected. -/
def specTrimmedTokenPairs (sortBy : String) : List SortField :=
  (splitComma sortBy).filterMap (fun tok =>
    let t := jsTrim tok
    let f := stripSign t
    if f = "" then none
    else some ⟨f, if strStartsWith t '-' then -1 else 1⟩)

/-! # Theorems -/

/-! ## C1: write-payload coercion vs filter-value coercion -/

/-- C1 (counterexample): the claim that write-payload coercion and
filter-value coercion either both drop a field or both produce the same
coerced value is false: on field `target` with raw value `""`, the filter
sanitizer drops the entry while the write sanitizer keeps the empty string. -/
theorem c1_coercion_identical_counterexample :
    ¬ parseFilterValue "target" (Value.str "") = coerceWrite "target" (Value.str "") := by
  decide

/-- C1 (amended): for every field name and every raw value other than the
empty string, the coercion performed when sanitizing a write payload and the
coercion performed when sanitizing a filter value either both drop the field
or both produce the same coerced value; the empty string alone is dropped by
the filter sanitizer but retained by the write sanitizer (as `""`, or as `0`
for a numeric field). -/
theorem c1_coercion_agree_off_empty_string (field : String) (v : Value)
    (h : v ≠ Value.str "") :
    parseFilterValue field v = coerceWrite field v := by
  unfold parseFilterValue coerceWrite
  have hiff : (v = Value.undef ∨ v = Value.null ∨ v = Value.str "") ↔
      (v = Value.undef ∨ v = Value.null) := by
    constructor
    · rintro (h1 | h2 | h3)
      · exact Or.inl h1
      · exact Or.inr h2
      · exact absurd h3 h
    · rintro (h1 | h2)
      · exact Or.inl h1
      · exact Or.inr (Or.inl h2)
  simp only [hiff]

/-- C1 (witness): the amended agreement evaluated at field `price`, raw
value `"7"`. -/
theorem c1_coercion_agree_off_empty_string_witness :
    Value.str "7" ≠ Value.str "" ∧
      parseFilterValue "price" (Value.str "7") = coerceWrite "price" (Value.str "7") :=
  ⟨by decide, c1_coercion_agree_off_empty_string "price" (Value.str "7") (by decide)⟩

/-! ## C10: nullish values sort last ascending, first descending -/

/-- C10: in the sort comparator, a missing (null or undefined) sort-field
value always sorts as the greatest element: whatever the present value is,
`compareValues` returns `1` with the lacking record on the left and `-1`
with it on the right, so under an ascending direction the lacking record is
ordered after the other (`comparison * 1 = 1`) and under a descending
direction before it (`comparison * -1 = -1`). -/
theorem c10_nullish_sorts_last (ra rb : Obj) (f : String)
    (ha : getField ra f = Value.null ∨ getField ra f = Value.undef)
    (hb : getField rb f ≠ Value.null ∧ getField rb f ≠ Value.undef) :
    compareValues (getField ra f) (getField rb f) = 1 ∧
    compareValues (getField rb f) (getField ra f) = -1 ∧
    itemCmp [⟨f, 1⟩] ra rb = 1 ∧
    itemCmp [⟨f, -1⟩] ra rb = -1 := by
  have hne : getField ra f ≠ getField rb f := by
    intro he
    rcases ha with h1 | h1 <;> rw [h1] at he
    · exact hb.1 he.symm
    · exact hb.2 he.symm
  have hanull : getField ra f = Value.undef ∨ getField ra f = Value.null := ha.symm
  have hab : compareValues (getField ra f) (getField rb f) = 1 := by
    unfold compareValues
    rw [if_neg hne, if_pos hanull]
  have hba : compareValues (getField rb f) (getField ra f) = -1 := by
    unfold compareValues
    rw [if_neg (Ne.symm hne)]
    rw [if_neg (by rintro (h1 | h1); exacts [hb.2 h1, hb.1 h1])]
    rw [if_pos hanull]
  refine ⟨hab, hba, ?_, ?_⟩ <;>
    · unfold itemCmp
      rw [hab]
      norm_num

/-- C10 (witness): a record with no `price` field against one with
`price = 5`. -/
theorem c10_nullish_sorts_last_witness :
    (getField [] "price" = Value.null ∨ getField [] "price" = Value.undef) ∧
      (getField [("price", Value.num 5)] "price" ≠ Value.null ∧
        getField [("price", Value.num 5)] "price" ≠ Value.undef) ∧
      (compareValues (getField [] "price") (getField [("price", Value.num 5)] "price") = 1 ∧
        compareValues (getField [("price", Value.num 5)] "price") (getField [] "price") = -1 ∧
        itemCmp [⟨"price", 1⟩] [] [("price", Value.num 5)] = 1 ∧
        itemCmp [⟨"price", -1⟩] [] [("price", Value.num 5)] = -1) :=
  ⟨by decide, by decide,
    c10_nullish_sorts_last [] [("price", Value.num 5)] "price" (by decide) (by decide)⟩

/-! ## C9: sort-directive parsing -/

/-- C9 (counterexample): parsing does not act on the raw comma-split tokens
as the claim states: on the directive `" -price"` the claim's reading yields
the ascending pair on field `" -price"` (the token does not start with `-`),
while the code trims the token first and yields the descending pair on field
`price`. -/
theorem c9_parse_literal_counterexample :
    ¬ parseSortBy " -price" = specTokenPairs " -price" := by
  decide

/-- C9 (amended): with each comma-split token first trimmed of surrounding
whitespace, parsing produces, in token order, one (field, direction) pair
per token — a leading `-` yields descending, a leading `+` or no prefix
ascending, the single leading prefix character is stripped from the field
name — and any token whose field name is empty after prefix-stripping is
discarded. -/
theorem c9_parse_matches_trimmed_spec (s : String) :
    parseSortBy s = specTrimmedTokenPairs s := by
  have hstrip : stripSign "" = "" := by decide
  unfold parseSortBy specTrimmedTokenPairs
  generalize splitComma s = toks
  induction toks with
  | nil => rfl
  | cons t ts ih =>
    simp only [List.map_cons, List.filter_cons, List.filterMap_cons]
    by_cases h1 : jsTrim t = ""
    · simp only [h1, hstrip]
      simpa using ih
    · by_cases h2 : stripSign (jsTrim t) = ""
      · simp only [h1, h2]
        simpa [h1, h2] using ih
      · simp only [h1, h2]
        simpa [h1, h2] using ih

/-! ## C3: the exhaustive scanner concatenates all pages -/

/-- The loop invariant of `scanAllGo`: starting from page `i` with enough
fuel for the remaining chain, the loop returns the concatenation of the
yielded (filtered) pages from `i` on. -/
theorem scanAllGo_drop (fe : FilterExpressions) (pages : List (List Obj)) :
    ∀ fuel i, i < pages.length → pages.length - (i + 1) ≤ fuel →
      scanAllGo fe pages fuel (some i) =
        ((pages.drop i).map (List.filter (evalFilter fe))).flatten := by
  intro fuel
  induction fuel with
  | zero =>
    intro i hi hfuel
    have hlast : ¬ i + 1 < pages.length := by omega
    simp only [scanAllGo, scanPage, Option.getD_some, if_neg hlast]
    rw [List.drop_eq_getElem_cons hi, List.drop_eq_nil_of_le (by omega)]
    simp [List.getElem?_eq_getElem hi]
  | succ f ih =>
    intro i hi hfuel
    by_cases hnext : i + 1 < pages.length
    · simp only [scanAllGo, scanPage, Option.getD_some, if_pos hnext]
      rw [ih (i + 1) hnext (by omega)]
      rw [List.drop_eq_getElem_cons hi, List.map_cons, List.flatten_cons]
      simp [List.getD_eq_getElem?_getD, List.getElem?_eq_getElem hi]
    · simp only [scanAllGo, scanPage, Option.getD_some, if_neg hnext]
      rw [List.drop_eq_getElem_cons hi, List.drop_eq_nil_of_le (by omega)]
      simp [List.getElem?_eq_getElem hi]

/-- The first request (no continuation token) behaves as a request for
page 0. -/
theorem scanAllGo_none (fe : FilterExpressions) (pages : List (List Obj))
    (fuel : Nat) :
    scanAllGo fe pages fuel none = scanAllGo fe pages fuel (some 0) := by
  cases fuel <;> rfl

/-- `scanAll` drains the whole chain: it returns the concatenation, in page
order, of the records each page yields under the filter expression. -/
theorem scanAll_eq_flatten (fe : FilterExpressions) (pages : List (List Obj)) :
    scanAll fe pages = (pages.map (List.filter (evalFilter fe))).flatten := by
  cases pages with
  | nil => rfl
  | cons p ps =>
    unfold scanAll
    rw [scanAllGo_none, scanAllGo_drop fe (p :: ps) (p :: ps).length 0
      (by simp) (by omega)]
    rfl

/-- C3: for every store whose pages form a finite chain of continuation
tokens, `scanAll` terminates and returns exactly the concatenation of all
pages' yielded records in page order: it starts with no token, re-issues the
scan with each returned token, stops at the first page without a token, and
accumulates every page's items in page order. -/
theorem c3_scanAll_accumulates_all_pages (fe : FilterExpressions)
    (pages : List (List Obj)) :
    scanAll fe pages = (pages.map (List.filter (evalFilter fe))).flatten :=
  scanAll_eq_flatten fe pages

/-! ## C2: absent/empty/uncoercible filter entries are dropped -/

/-- Characterization of the dropped filter entries: `parseFilterValue`
drops exactly the undefined, null, empty-string, and (for the numeric
fields) uncoercible values. -/
theorem parseFilterValue_eq_none_iff (k : String) (v : Value) :
    parseFilterValue k v = none ↔
      (v = Value.undef ∨ v = Value.null ∨ v = Value.str "" ∨
        (k ∈ numericFields ∧ toNumber v = none)) := by
  unfold parseFilterValue
  by_cases h1 : v = Value.undef ∨ v = Value.null ∨ v = Value.str ""
  · rw [if_pos h1]
    constructor
    · intro _
      rcases h1 with h | h | h
      · exact Or.inl h
      · exact Or.inr (Or.inl h)
      · exact Or.inr (Or.inr (Or.inl h))
    · intro _
      rfl
  · rw [if_neg h1]
    push_neg at h1
    by_cases h2 : k ∈ numericFields
    · rw [if_pos h2]
      cases htn : toNumber v with
      | some n => simp [h1.1, h1.2.1, h1.2.2, htn]
      | none => simp [h1.1, h1.2.1, h1.2.2, htn, h2]
    · rw [if_neg h2]
      by_cases h3 : k = "year"
      · simp [h3, h1.1, h1.2.1, h1.2.2, numericFields]
      · simp [h3, h1.1, h1.2.1, h1.2.2, h2]

/-- Removing the dropped entries before sanitization does not change the
sanitized filter set. -/
theorem sanitizeFilters_filter_kept (filters : Obj) :
    sanitizeFilters (filters.filter (fun kv => (parseFilterValue kv.1 kv.2).isSome)) =
      sanitizeFilters filters := by
  unfold sanitizeFilters
  induction filters with
  | nil => rfl
  | cons kv l ih =>
    simp only [List.filter_cons]
    cases h : parseFilterValue kv.1 kv.2 with
    | none => simp [h, ih]
    | some w => simp [h, ih]

/-- A filter set whose every entry is dropped sanitizes to the empty set. -/
theorem sanitizeFilters_eq_nil (filters : Obj)
    (h : ∀ kv ∈ filters, parseFilterValue kv.1 kv.2 = none) :
    sanitizeFilters filters = [] := by
  induction filters with
  | nil => rfl
  | cons kv l ih =>
    have hkv := h kv (List.mem_cons_self kv l)
    simp only [sanitizeFilters, List.filterMap_cons, hkv, Option.map_none']
    exact ih (fun e he => h e (List.mem_cons_of_mem kv he))

/-- An absent filter expression matches every record. -/
theorem filter_evalFilter_default (l : List Obj) :
    l.filter (evalFilter {}) = l :=
  List.filter_eq_self.mpr (fun _ _ => rfl)

/-- C2: `list` behaves as if every entry whose value is absent (undefined),
null, the empty string, or an uncoercible value for a numeric field (`id` or
`price`) were removed before compilation (first two conjuncts); and if no
entries remain after sanitization, no filter expression at all is emitted and
the scan returns every record — the same result as an empty filter set, not
zero records (last conjunct). -/
theorem c2_list_ignores_dropped_filters (pages : List (List Obj))
    (filters : Obj) (sortBy : String) :
    (∀ k v, parseFilterValue k v = none ↔
      (v = Value.undef ∨ v = Value.null ∨ v = Value.str "" ∨
        (k ∈ numericFields ∧ toNumber v = none))) ∧
    listInvestments pages filters sortBy =
      listInvestments pages
        (filters.filter (fun kv => (parseFilterValue kv.1 kv.2).isSome)) sortBy ∧
    ((∀ kv ∈ filters, parseFilterValue kv.1 kv.2 = none) →
      buildFilterExpressions (sanitizeFilters filters) = {} ∧
      scanAll (buildFilterExpressions (sanitizeFilters filters)) pages = pages.flatten ∧
      listInvestments pages filters sortBy = listInvestments pages [] sortBy) := by
  refine ⟨parseFilterValue_eq_none_iff, ?_, ?_⟩
  · unfold listInvestments
    rw [sanitizeFilters_filter_kept]
  · intro h
    have hs : sanitizeFilters filters = [] := sanitizeFilters_eq_nil filters h
    refine ⟨by rw [hs]; rfl, ?_, ?_⟩
    · rw [hs]
      show scanAll {} pages = pages.flatten
      rw [scanAll_eq_flatten]
      rw [List.map_congr_left (fun l _ => filter_evalFilter_default l)]
      simp
    · unfold listInvestments
      rw [hs]
      rfl

/-- C2 (witness): the uncoercible filter `{price: "abc"}` over a two-page
store behaves as the empty filter set. -/
theorem c2_list_ignores_dropped_filters_witness :
    (∀ kv ∈ ([("price", Value.str "abc")] : Obj), parseFilterValue kv.1 kv.2 = none) ∧
      (buildFilterExpressions (sanitizeFilters [("price", Value.str "abc")]) = {} ∧
        scanAll (buildFilterExpressions (sanitizeFilters [("price", Value.str "abc")]))
          [[[("id", Value.num 1)]], [[("id", Value.num 2)]]] =
          [[[("id", Value.num 1)]], [[("id", Value.num 2)]]].flatten ∧
        listInvestments [[[("id", Value.num 1)]], [[("id", Value.num 2)]]]
          [("price", Value.str "abc")] "" =
          listInvestments [[[("id", Value.num 1)]], [[("id", Value.num 2)]]] [] "") :=
  ⟨by decide,
    (c2_list_ignores_dropped_filters [[[("id", Value.num 1)]], [[("id", Value.num 2)]]]
      [("price", Value.str "abc")] "").2.2 (by decide)⟩

/-! ## C4: sorting is stable -/

/-- Inserting an element only adds it: the old list is a sublist of the
result. -/
theorem sublist_jsInsert (le : α → α → Bool) (x : α) :
    ∀ t : List α, List.Sublist t (jsInsert le x t)
  | [] => List.nil_sublist _
  | y :: ys => by
    unfold jsInsert
    by_cases h : le x y
    · rw [if_pos h]
      exact List.sublist_cons_self x (y :: ys)
    · rw [if_neg h]
      exact List.Sublist.cons₂ y (sublist_jsInsert le x ys)

/-- Insertion produces a permutation of the element consed in front. -/
theorem jsInsert_perm (le : α → α → Bool) (x : α) :
    ∀ t : List α, (jsInsert le x t).Perm (x :: t)
  | [] => List.Perm.refl _
  | y :: ys => by
    unfold jsInsert
    by_cases h : le x y
    · rw [if_pos h]
    · rw [if_neg h]
      exact (List.Perm.cons y (jsInsert_perm le x ys)).trans (List.Perm.swap x y ys)

/-- The sort permutes its input. -/
theorem jsSortBy_perm (le : α → α → Bool) :
    ∀ l : List α, (jsSortBy le l).Perm l
  | [] => List.Perm.refl _
  | x :: xs =>
    (jsInsert_perm le x (jsSortBy le xs)).trans (List.Perm.cons x (jsSortBy_perm le xs))

/-- Inserting `a` into a list containing `b` keeps `a` before `b` whenever
the comparator does not order `a` strictly after `b`. -/
theorem jsInsert_pair (le : α → α → Bool) (a b : α) (hle : le a b = true) :
    ∀ s : List α, b ∈ s → List.Sublist [a, b] (jsInsert le a s)
  | [], hb => absurd hb (List.not_mem_nil b)
  | y :: ys, hb => by
    unfold jsInsert
    by_cases h : le a y
    · rw [if_pos h]
      exact List.Sublist.cons₂ a (List.singleton_sublist.mpr hb)
    · rw [if_neg h]
      rcases List.mem_cons.mp hb with h1 | h1
    
      · exact absurd (by rw [← h1]; exact hle) h
      · exact List.Sublist.cons y (jsInsert_pair le a b hle ys h1)

/-- Stability of the sort: a pair already in order whose left component the
comparator does not order strictly after the right one stays in order. -/
theorem jsSortBy_pair_stable (le : α → α → Bool) (a b : α)
    (hle : le a b = true) :
    ∀ l : List α, List.Sublist [a, b] l → List.Sublist [a, b] (jsSortBy le l) := by
  intro l
  induction l with
  | nil =>
    intro h
    exact absurd h (by simp)
  | cons x xs ih =>
    intro h
    cases h with
    | cons _ h' =>
      exact (ih h').trans (sublist_jsInsert le x (jsSortBy le xs))
    | cons₂ _ h' =>
      have hb : b ∈ jsSortBy le xs :=
        ((jsSortBy_perm le xs).mem_iff).mpr (List.singleton_sublist.mp h')
      exact jsInsert_pair le a b hle (jsSortBy le xs) hb

/-- Records that tie on every sort field make the whole comparator return
zero. -/
theorem itemCmp_eq_zero (a b : Obj) :
    ∀ sfs : List SortField,
      (∀ sf ∈ sfs, compareValues (getField a sf.field) (getField b sf.field) = 0) →
      itemCmp sfs a b = 0
  | [], _ => rfl
  | sf :: rest, h => by
    have h0 := h sf (List.mem_cons_self sf rest)
    have hrest := itemCmp_eq_zero a b rest (fun f hf => h f (List.mem_cons_of_mem sf hf))
    simp only [itemCmp, h0]
    simpa using hrest

/-- C4: sorting is stable for every sort directive: whenever two records
compare equal on every parsed sort field, they appear in the sorted output
in the same relative order they had in the pre-sort input sequence. -/
theorem c4_sort_stable (items : List Obj) (sortBy : String) (a b : Obj)
    (hsub : List.Sublist [a, b] items)
    (heq : ∀ sf ∈ parseSortBy sortBy,
      compareValues (getField a sf.field) (getField b sf.field) = 0) :
    List.Sublist [a, b] (sortItems items sortBy) := by
  unfold sortItems
  by_cases h : parseSortBy sortBy = []
  · rw [if_pos h]
    exact hsub
  · rw [if_neg h]
    have h0 : itemCmp (parseSortBy sortBy) a b = 0 := itemCmp_eq_zero a b _ heq
    exact jsSortBy_pair_stable _ a b (by simp [h0]) items hsub

/-- C4 (witness): two records tying on `price` keep their input order under
the `"price"` directive. -/
theorem c4_sort_stable_witness :
    List.Sublist [[("price", Value.num 1), ("tag", Value.str "a")],
        [("price", Value.num 1), ("tag", Value.str "b")]]
      [[("price", Value.num 1), ("tag", Value.str "a")],
        [("price", Value.num 1), ("tag", Value.str "b")]] ∧
    (∀ sf ∈ parseSortBy "price",
      compareValues (getField [("price", Value.num 1), ("tag", Value.str "a")] sf.field)
        (getField [("price", Value.num 1), ("tag", Value.str "b")] sf.field) = 0) ∧
    List.Sublist [[("price", Value.num 1), ("tag", Value.str "a")],
        [("price", Value.num 1), ("tag", Value.str "b")]]
      (sortItems [[("price", Value.num 1), ("tag", Value.str "a")],
        [("price", Value.num 1), ("tag", Value.str "b")]] "price") :=
  ⟨List.Sublist.refl _, by decide,
    c4_sort_stable _ "price" _ _ (List.Sublist.refl _) (by decide)⟩

/-! ## C5-C8: write-guard behaviour -/

/-- Write-payload coercion never emits an `undefined` value. -/
theorem coerceWrite_ne_undef :
    ∀ (k : String) (v w : Value), coerceWrite k v = some w → w ≠ Value.undef := by
  intro k v w h hw
  subst hw
  unfold coerceWrite at h
  by_cases h1 : v = Value.undef ∨ v = Value.null
  · rw [if_pos h1] at h
    cases h
  · rw [if_neg h1] at h
    by_cases h2 : k ∈ numericFields
    · rw [if_pos h2] at h
      cases htn : toNumber v <;> rw [htn] at h <;> simp at h
    · rw [if_neg h2] at h
      by_cases h3 : k = "year"
      · rw [if_pos h3] at h
        simp at h
      · rw [if_neg h3] at h
        simp at h
        exact h1 (Or.inl h)

/-- Under `repoUpdate`, filtering the sanitized update set for `undefined`
values keeps every entry. -/
theorem sanitizeInvestmentPayload_filter_undef (b : Obj) :
    (sanitizeInvestmentPayload b).filter (fun kv => kv.2 ≠ Value.undef) =
      sanitizeInvestmentPayload b := by
  apply List.filter_eq_self.mpr
  intro kv hkv
  obtain ⟨a, ha, hfa⟩ := List.mem_filterMap.mp hkv
  cases hc : coerceWrite a.1 a.2 with
  | none =>
    rw [hc] at hfa
    cases hfa
  | some w =>
    rw [hc] at hfa
    simp only [Option.map_some', Option.some.injEq] at hfa
    have hw := coerceWrite_ne_undef a.1 a.2 w hc
    rw [← hfa]
    simpa using hw

/-- A payload whose every field is dropped by the write coercion sanitizes
to the empty set. -/
theorem sanitizeInvestmentPayload_eq_nil (b : Obj)
    (h : ∀ kv ∈ b, coerceWrite kv.1 kv.2 = none) :
    sanitizeInvestmentPayload b = [] := by
  induction b with
  | nil => rfl
  | cons kv l ih =>
    have hkv := h kv (List.mem_cons_self kv l)
    simp only [sanitizeInvestmentPayload, List.filterMap_cons, hkv, Option.map_none']
    exact ih (fun e he => h e (List.mem_cons_of_mem kv he))

/-- C5: calling create twice with the same key makes the second call yield
the Conflict outcome (the store's precondition failure on the
"key must not exist" conditional put is mapped to Conflict), and the record
written by the first call is left unchanged by the second call. -/
theorem c5_create_twice_conflict (g1 g2 : Int) (n1 n2 : String) (t : Table)
    (b1 b2 : Obj) (k : Int)
    (h1 : lookupField (fillPayload g1 n1 b1) "id" = some (Value.num k))
    (h2 : lookupField (fillPayload g2 n2 b2) "id" = some (Value.num k))
    (habs : tableGet t k = none) :
    (serviceCreate g1 n1 t (some b1)).1 = .ok (fillPayload g1 n1 b1) ∧
    (serviceCreate g2 n2 (serviceCreate g1 n1 t (some b1)).2 (some b2)).1 =
      .error .conflict ∧
    tableGet (serviceCreate g2 n2 (serviceCreate g1 n1 t (some b1)).2 (some b2)).2 k =
      some (fillPayload g1 n1 b1) := by
  have hget : tableGet ((k, fillPayload g1 n1 b1) :: t) k = some (fillPayload g1 n1 b1) := by
    simp [tableGet]
  have e1 : serviceCreate g1 n1 t (some b1) =
      (.ok (fillPayload g1 n1 b1), (k, fillPayload g1 n1 b1) :: t) := by
    simp [serviceCreate, repoCreate, condPut, h1, habs]
  have e2 : serviceCreate g2 n2 ((k, fillPayload g1 n1 b1) :: t) (some b2) =
      (.error .conflict, (k, fillPayload g1 n1 b1) :: t) := by
    simp [serviceCreate, repoCreate, condPut, h2, hget]
  rw [e1]
  exact ⟨rfl, by rw [e2], by rw [e2]; exact hget⟩

/-- C5 (witness): creating `{id: 1}` twice on an empty store. -/
theorem c5_create_twice_conflict_witness :
    lookupField (fillPayload 7 "T1" [("id", Value.num 1)]) "id" = some (Value.num 1) ∧
    lookupField (fillPayload 8 "T2" [("id", Value.num 1)]) "id" = some (Value.num 1) ∧
    tableGet [] 1 = none ∧
    ((serviceCreate 7 "T1" [] (some [("id", Value.num 1)])).1 =
        .ok (fillPayload 7 "T1" [("id", Value.num 1)]) ∧
      (serviceCreate 8 "T2" (serviceCreate 7 "T1" [] (some [("id", Value.num 1)])).2
          (some [("id", Value.num 1)])).1 = .error .conflict ∧
      tableGet (serviceCreate 8 "T2" (serviceCreate 7 "T1" [] (some [("id", Value.num 1)])).2
          (some [("id", Value.num 1)])).2 1 =
        some (fillPayload 7 "T1" [("id", Value.num 1)])) :=
  ⟨by decide, by decide, by decide,
    c5_create_twice_conflict 7 8 "T1" "T2" [] [("id", Value.num 1)] [("id", Value.num 1)] 1
      (by decide) (by decide) (by decide)⟩

/-- C6: on a key absent from the store, update and delete yield the NotFound
outcome (update by mapping only the conditional-check precondition failure,
delete by the absence of a returned prior value), and every store error
other than the precondition failure is re-raised unchanged by the update
error handler rather than converted to a domain outcome. -/
theorem c6_missing_key_not_found (t : Table) (k : Int) (b : Obj)
    (habs : tableGet t k = none)
    (hne : sanitizeInvestmentPayload b ≠ []) :
    (serviceUpdate t (some k) (some b)).1 = .error .notFound ∧
    (serviceDelete t (some k)).1 = .error .notFound ∧
    (∀ (e : StoreErr) (t' : Table), e ≠ .condFail →
      updateCatch (.error e) t' = (.error e, t')) := by
  refine ⟨?_, ?_, ?_⟩
  · simp only [serviceUpdate]
    rw [if_neg hne]
    simp only [repoUpdate]
    rw [sanitizeInvestmentPayload_filter_undef b, if_neg hne]
    simp [condUpdate, habs, updateCatch]
  · simp [serviceDelete, repoDelete, tableDelete, habs]
  · intro e t' hne'
    simp [updateCatch, hne']

/-- C6 (witness): updating and deleting key `5` on an empty store, with a
nonempty sanitized update, and re-raising a non-precondition store error. -/
theorem c6_missing_key_not_found_witness :
    tableGet [] 5 = none ∧
    sanitizeInvestmentPayload [("price", Value.num 3)] ≠ [] ∧
    ((serviceUpdate [] (some 5) (some [("price", Value.num 3)])).1 = .error .notFound ∧
      (serviceDelete [] (some 5)).1 = .error .notFound ∧
      (∀ (e : StoreErr) (t' : Table), e ≠ .condFail →
        updateCatch (.error e) t' = (.error e, t'))) :=
  ⟨by decide, by decide,
    c6_missing_key_not_found [] 5 [("price", Value.num 3)] (by decide) (by decide)⟩

/-- C7: an update request whose sanitized field-set is empty (every supplied
field dropped by the write coercion — null/undefined, or uncoercible on a
numeric field) fails with the ValidationError outcome, which is distinct
from NotFound, and issues no store call at all (the store-call counter stays
at zero and the table is untouched). -/
theorem c7_empty_update_validation (t : Table) (k : Int) (b : Obj)
    (h : ∀ kv ∈ b, coerceWrite kv.1 kv.2 = none) :
    SvcErr.validation ≠ SvcErr.notFound ∧
    serviceUpdate t (some k) (some b) = (.error .validation, t, 0) := by
  have hs : sanitizeInvestmentPayload b = [] := sanitizeInvestmentPayload_eq_nil b h
  exact ⟨by decide, by simp [serviceUpdate, hs]⟩

/-- C7 (witness): the update body `{price: "abc", x: null}` sanitizes to
nothing and is rejected without a store call. -/
theorem c7_empty_update_validation_witness :
    (∀ kv ∈ ([("price", Value.str "abc"), ("x", Value.null)] : Obj),
      coerceWrite kv.1 kv.2 = none) ∧
    (SvcErr.validation ≠ SvcErr.notFound ∧
      serviceUpdate [(5, [("id", Value.num 5)])] (some 5)
          (some [("price", Value.str "abc"), ("x", Value.null)]) =
        (.error .validation, [(5, [("id", Value.num 5)])], 0)) :=
  ⟨by decide,
    c7_empty_update_validation [(5, [("id", Value.num 5)])] 5
      [("price", Value.str "abc"), ("x", Value.null)] (by decide)⟩

/-- C8: round-trip — after a successful `create` of a payload, `getByKey` on
the payload's key returns exactly the prepared record: the payload after
write coercion (numeric coercion of `id`/`price`, string coercion of
`year`), with the key and creation timestamp populated if they were
absent. -/
theorem c8_create_get_roundtrip (g : Int) (now : String) (t : Table) (b : Obj)
    (k : Int)
    (hid : lookupField (fillPayload g now b) "id" = some (Value.num k))
    (habs : tableGet t k = none) :
    (serviceCreate g now t (some b)).1 = .ok (fillPayload g now b) ∧
    repoGetById (serviceCreate g now t (some b)).2 k = some (fillPayload g now b) := by
  have e1 : serviceCreate g now t (some b) =
      (.ok (fillPayload g now b), (k, fillPayload g now b) :: t) := by
    simp [serviceCreate, repoCreate, condPut, hid, habs]
  rw [e1]
  exact ⟨rfl, by simp [repoGetById, tableGet]⟩

/-- C8 (witness): creating `{id: "3", year: 2024}` on an empty store and
reading key `3` back. -/
theorem c8_create_get_roundtrip_witness :
    lookupField (fillPayload 7 "T" [("id", Value.str "3"), ("year", Value.num 2024)]) "id" =
      some (Value.num 3) ∧
    tableGet [] 3 = none ∧
    ((serviceCreate 7 "T" [] (some [("id", Value.str "3"), ("year", Value.num 2024)])).1 =
        .ok (fillPayload 7 "T" [("id", Value.str "3"), ("year", Value.num 2024)]) ∧
      repoGetById
          (serviceCreate 7 "T" [] (some [("id", Value.str "3"), ("year", Value.num 2024)])).2 3 =
        some (fillPayload 7 "T" [("id", Value.str "3"), ("year", Value.num 2024)])) :=
  ⟨by decide, by decide,
    c8_create_get_roundtrip 7 "T" [] [("id", Value.str "3"), ("year", Value.num 2024)] 3
      (by decide) (by decide)⟩
